import Mathlib

/-!
Verification of the byte-stream core of the minnow repository.

The data model and operations below are shallow embeddings of
src/byte_stream.hh, src/byte_stream.cc and src/byte_stream_helpers.cc.
In byte_stream.cc most method bodies are explicit placeholders marked
with the comment "Your code here.": push and pop ignore their arguments
and leave the object unchanged, the numeric queries return the
value-initialized integer 0, and the Boolean queries return the
value-initialized Boolean false.  Only Writer::close (which assigns
closed_ = true), the constructor, set_error and has_error have bodies
with content, and the drain helper read in byte_stream_helpers.cc is
fully implemented.  The embedding reproduces exactly those bodies.

Note: Writer::close assigns a member closed_ that byte_stream.hh never
declares, so the C++ translation unit as given does not compile.  The
header instructs implementers to add additional state to ByteStream;
the embedding therefore carries a closed_ field, value-initialized to
false, as the evident intent of that assignment.
-/

/-- Bytes of the stream payload.  Their numeric range never matters to
any claim, so they are modelled as natural numbers. -/
abbrev Byte := Nat

/-- State of a ByteStream object: the members declared in
byte_stream.hh (capacity_, error_) plus the closed_ flag assigned by
Writer::close.  The skeleton declares no buffer and no counters. -/
structure ByteStream where
  capacity_ : Nat
  error_ : Bool
  closed_ : Bool
deriving DecidableEq, Repr

/-- ByteStream::ByteStream( uint64_t capacity ) : capacity_( capacity ) \x7b\x7d.
The members error_ and closed_ are value-initialized to false.  The
constructor performs no check on capacity. -/
def ByteStream.construct (capacity : Nat) : ByteStream :=
  { capacity_ := capacity, error_ := false, closed_ := false }

/-- void ByteStream::set_error() \x7b error_ = true; \x7d (byte_stream.hh). -/
def ByteStream.set_error (s : ByteStream) : ByteStream :=
  { s with error_ := true }

/-- bool ByteStream::has_error() const \x7b return error_; \x7d (byte_stream.hh). -/
def ByteStream.has_error (s : ByteStream) : Bool :=
  s.error_

/-- void Writer::push( string data ): the body is the placeholder
"(void)data; // Your code here." — it ignores data and changes nothing. -/
def Writer.push (s : ByteStream) (data : List Byte) : ByteStream :=
  s

/-- void Writer::close(): the body assigns closed_ = true. -/
def Writer.close (s : ByteStream) : ByteStream :=
  { s with closed_ := true }

/-- bool Writer::is_closed() const: the body is "return \x7b\x7d;", a
value-initialized bool, i.e. the constant false; it never reads closed_. -/
def Writer.is_closed (s : ByteStream) : Bool :=
  false

/-- uint64_t Writer::available_capacity() const: the body is
"return \x7b\x7d;", a value-initialized uint64_t, i.e. the constant 0. -/
def Writer.available_capacity (s : ByteStream) : Nat :=
  0

/-- uint64_t Writer::bytes_pushed() const: the body is "return \x7b\x7d;",
the constant 0. -/
def Writer.bytes_pushed (s : ByteStream) : Nat :=
  0

/-- string_view Reader::peek() const: the body is "return \x7b\x7d;", the
empty view. -/
def Reader.peek (s : ByteStream) : List Byte :=
  []

/-- void Reader::pop( uint64_t len ): the body is the placeholder
"(void)len; // Your code here." — it ignores len and changes nothing,
with no assertion and no exception. -/
def Reader.pop (s : ByteStream) (len : Nat) : ByteStream :=
  s

/-- bool Reader::is_finished() const: the body is "return \x7b\x7d;", the
constant false. -/
def Reader.is_finished (s : ByteStream) : Bool :=
  false

/-- uint64_t Reader::bytes_buffered() const: the body is "return \x7b\x7d;",
the constant 0. -/
def Reader.bytes_buffered (s : ByteStream) : Nat :=
  0

/-- uint64_t Reader::bytes_popped() const: the body is "return \x7b\x7d;",
the constant 0. -/
def Reader.bytes_popped (s : ByteStream) : Nat :=
  0

/-- One call of the mutating ByteStream interface, for reasoning about
finite operation sequences. -/
inductive Op where
  | push (data : List Byte)
  | close
  | pop (len : Nat)
  | setError
deriving DecidableEq, Repr

/-- Dispatch one interface call to the embedded method. -/
def applyOp (s : ByteStream) : Op → ByteStream
  | Op.push d => Writer.push s d
  | Op.close => Writer.close s
  | Op.pop len => Reader.pop s len
  | Op.setError => ByteStream.set_error s

/-- Run a finite sequence of interface calls, left to right. -/
def applyOps (s : ByteStream) : List Op → ByteStream
  | [] => s
  | op :: rest => applyOps (applyOp s op) rest

/-- The stated precondition of the interface along a run: every
Reader::pop( len ) call satisfies len ≤ bytes_buffered() at the state
where it is issued (spec section 4.3). -/
def opsValid (s : ByteStream) : List Op → Bool
  | [] => true
  | Op.pop len :: rest =>
      decide (len ≤ Reader.bytes_buffered s) && opsValid (Reader.pop s len) rest
  | op :: rest => opsValid (applyOp s op) rest

/-- Bytes accepted by the push calls of a run: each push accepts the
first min(n, available_capacity()) bytes of its data, per the push
contract, measured with the embedded available_capacity. -/
def acceptedBytes (s : ByteStream) : List Op → List Byte
  | [] => []
  | Op.push d :: rest =>
      d.take (min d.length (Writer.available_capacity s))
        ++ acceptedBytes (Writer.push s d) rest
  | op :: rest => acceptedBytes (applyOp s op) rest

/-- Bytes consumed by the reader along a run: each pop( len ) consumes
the first len bytes shown by peek() at the state where it is issued. -/
def consumedBytes (s : ByteStream) : List Op → List Byte
  | [] => []
  | Op.pop len :: rest =>
      (Reader.peek s).take len ++ consumedBytes (Reader.pop s len) rest
  | op :: rest => consumedBytes (applyOp s op) rest

/-- a is a prefix of b. -/
def isPrefixList (a b : List Byte) : Prop :=
  ∃ t, a ++ t = b

/-- The part of the Reader interface the drain helper read in
byte_stream_helpers.cc actually uses: peek, pop and bytes_buffered,
over an arbitrary reader state σ with byte type β. -/
structure ReaderIntf (β σ : Type) where
  peek : σ → List β
  pop : σ → Nat → σ
  bytes_buffered : σ → Nat

/-- The while loop of read (byte_stream_helpers.cc):
while ( reader.bytes_buffered() and out.size() < max_len ) \x7b take a
view = reader.peek(); throw if the view is empty; truncate it to
max_len − out.size(); append it to out; reader.pop( view.size() ) \x7d.
On exit it yields the collected string and the reader state. -/
def readLoop (rm : ReaderIntf β σ) (maxLen : Nat) (s : σ) (out : List β) :
    Except String (List β × σ) :=
  if h : rm.bytes_buffered s ≠ 0 ∧ out.length < maxLen then
    let view := rm.peek s
    if hv : view.length = 0 then
      Except.error ("Reader peek returned empty string_view")
    else
      let v := view.take (maxLen - out.length)
      readLoop rm maxLen (rm.pop s v.length) (out ++ v)
  else
    Except.ok (out, s)
termination_by maxLen - out.length
decreasing_by
  have hview : 0 < view.length := Nat.pos_of_ne_zero hv
  have hvlen : 0 < v.length := by
    show 0 < (view.take (maxLen - out.length)).length
    rw [List.length_take]
    exact lt_min (by omega) hview
  have hgrow : out.length < (out ++ v).length := by
    simp only [List.length_append]
    omega
  exact Nat.sub_lt_sub_left h.2 hgrow

/-- void read( Reader& reader, uint64_t max_len, string& out ): clears
out, then runs the peek/pop loop.  The out argument models the string
passed by reference; its prior contents are discarded by out.clear(). -/
def read (rm : ReaderIntf β σ) (maxLen : Nat) (s : σ) (out : List β) :
    Except String (List β × σ) :=
  readLoop rm maxLen s []

/-- Execution observes the fatal combination: following exactly the
iterations of the read loop, some reached iteration has
bytes_buffered() nonzero (and out still short of max_len) while peek()
returns an empty view. -/
def observesEmptyPeek (rm : ReaderIntf β σ) (maxLen : Nat) (s : σ) (out : List β) :
    Bool :=
  if h : rm.bytes_buffered s ≠ 0 ∧ out.length < maxLen then
    let view := rm.peek s
    if hv : view.length = 0 then
      true
    else
      let v := view.take (maxLen - out.length)
      observesEmptyPeek rm maxLen (rm.pop s v.length) (out ++ v)
  else
    false
termination_by maxLen - out.length
decreasing_by
  have hview : 0 < view.length := Nat.pos_of_ne_zero hv
  have hvlen : 0 < v.length := by
    show 0 < (view.take (maxLen - out.length)).length
    rw [List.length_take]
    exact lt_min (by omega) hview
  have hgrow : out.length < (out ++ v).length := by
    simp only [List.length_append]
    omega
  exact Nat.sub_lt_sub_left h.2 hgrow

/-- The successive nonempty fragments the read loop appends to out
(one per iteration, each a truncated peek view), following exactly the
iterations of the loop. -/
def readFragments (rm : ReaderIntf β σ) (maxLen : Nat) (s : σ) (out : List β) :
    List (List β) :=
  if h : rm.bytes_buffered s ≠ 0 ∧ out.length < maxLen then
    let view := rm.peek s
    if hv : view.length = 0 then
      []
    else
      let v := view.take (maxLen - out.length)
      v :: readFragments rm maxLen (rm.pop s v.length) (out ++ v)
  else
    []
termination_by maxLen - out.length
decreasing_by
  have hview : 0 < view.length := Nat.pos_of_ne_zero hv
  have hvlen : 0 < v.length := by
    show 0 < (view.take (maxLen - out.length)).length
    rw [List.length_take]
    exact lt_min (by omega) hview
  have hgrow : out.length < (out ++ v).length := by
    simp only [List.length_append]
    omega
  exact Nat.sub_lt_sub_left h.2 hgrow

/-- The Reader interface of the repository byte stream, packaged for
the drain helper (this is the instantiation the helper is compiled
against in byte_stream_helpers.cc). -/
def minnowReader : ReaderIntf Byte ByteStream :=
  { peek := Reader.peek, pop := Reader.pop, bytes_buffered := Reader.bytes_buffered }

/-- When the while condition fails, the read loop returns the collected
bytes and the reader state unchanged. -/
theorem readLoop_stop (rm : ReaderIntf β σ) (maxLen : Nat) (s : σ) (out : List β)
    (h : ¬(rm.bytes_buffered s ≠ 0 ∧ out.length < maxLen)) :
    readLoop rm maxLen s out = Except.ok (out, s) := by
  rw [readLoop.eq_def]
  exact dif_neg h

/-- When the while condition holds and peek returns an empty view, the
read loop throws. -/
theorem readLoop_throw (rm : ReaderIntf β σ) (maxLen : Nat) (s : σ) (out : List β)
    (h : rm.bytes_buffered s ≠ 0 ∧ out.length < maxLen)
    (hv : (rm.peek s).length = 0) :
    readLoop rm maxLen s out = Except.error ("Reader peek returned empty string_view") := by
  rw [readLoop.eq_def, dif_pos h]
  simp only [dif_pos hv]

/-- When the while condition holds and peek returns a nonempty view,
the read loop appends the truncated view, pops it, and continues. -/
theorem readLoop_step (rm : ReaderIntf β σ) (maxLen : Nat) (s : σ) (out : List β)
    (h : rm.bytes_buffered s ≠ 0 ∧ out.length < maxLen)
    (hv : ¬(rm.peek s).length = 0) :
    readLoop rm maxLen s out =
      readLoop rm maxLen (rm.pop s ((rm.peek s).take (maxLen - out.length)).length)
        (out ++ (rm.peek s).take (maxLen - out.length)) := by
  conv_lhs => rw [readLoop.eq_def]
  simp only [dif_pos h, dif_neg hv]

/-- Stop case of the observation predicate. -/
theorem observesEmptyPeek_stop (rm : ReaderIntf β σ) (maxLen : Nat) (s : σ) (out : List β)
    (h : ¬(rm.bytes_buffered s ≠ 0 ∧ out.length < maxLen)) :
    observesEmptyPeek rm maxLen s out = false := by
  rw [observesEmptyPeek.eq_def]
  exact dif_neg h

/-- Fault case of the observation predicate. -/
theorem observesEmptyPeek_throw (rm : ReaderIntf β σ) (maxLen : Nat) (s : σ) (out : List β)
    (h : rm.bytes_buffered s ≠ 0 ∧ out.length < maxLen)
    (hv : (rm.peek s).length = 0) :
    observesEmptyPeek rm maxLen s out = true := by
  rw [observesEmptyPeek.eq_def, dif_pos h]
  simp only [dif_pos hv]

/-- Step case of the observation predicate. -/
theorem observesEmptyPeek_step (rm : ReaderIntf β σ) (maxLen : Nat) (s : σ) (out : List β)
    (h : rm.bytes_buffered s ≠ 0 ∧ out.length < maxLen)
    (hv : ¬(rm.peek s).length = 0) :
    observesEmptyPeek rm maxLen s out =
      observesEmptyPeek rm maxLen (rm.pop s ((rm.peek s).take (maxLen - out.length)).length)
        (out ++ (rm.peek s).take (maxLen - out.length)) := by
  conv_lhs => rw [observesEmptyPeek.eq_def]
  simp only [dif_pos h, dif_neg hv]

/-- Stop case of the fragment list. -/
theorem readFragments_stop (rm : ReaderIntf β σ) (maxLen : Nat) (s : σ) (out : List β)
    (h : ¬(rm.bytes_buffered s ≠ 0 ∧ out.length < maxLen)) :
    readFragments rm maxLen s out = [] := by
  rw [readFragments.eq_def]
  exact dif_neg h

/-- Step case of the fragment list. -/
theorem readFragments_step (rm : ReaderIntf β σ) (maxLen : Nat) (s : σ) (out : List β)
    (h : rm.bytes_buffered s ≠ 0 ∧ out.length < maxLen)
    (hv : ¬(rm.peek s).length = 0) :
    readFragments rm maxLen s out =
      (rm.peek s).take (maxLen - out.length) ::
        readFragments rm maxLen (rm.pop s ((rm.peek s).take (maxLen - out.length)).length)
          (out ++ (rm.peek s).take (maxLen - out.length)) := by
  conv_lhs => rw [readFragments.eq_def]
  simp only [dif_pos h, dif_neg hv]

/-- The read loop throws exactly when, along its own iterations, it
meets a state with bytes_buffered() nonzero and an empty peek view. -/
theorem readLoop_error_iff (rm : ReaderIntf β σ) (maxLen : Nat) (s : σ) (out : List β) :
    (∃ msg, readLoop rm maxLen s out = Except.error msg) ↔
      observesEmptyPeek rm maxLen s out = true := by
  induction s, out using readLoop.induct rm maxLen with
  | case1 s out h view hv =>
    rw [readLoop_throw rm maxLen s out h hv, observesEmptyPeek_throw rm maxLen s out h hv]
    simp
  | case2 s out h view hv v ih =>
    rw [readLoop_step rm maxLen s out h hv, observesEmptyPeek_step rm maxLen s out h hv]
    exact ih
  | case3 s out h =>
    rw [readLoop_stop rm maxLen s out h, observesEmptyPeek_stop rm maxLen s out h]
    simp

/-- A normal return of the read loop happens only with max_len bytes
collected or the buffer empty. -/
theorem readLoop_ok_stop (rm : ReaderIntf β σ) (maxLen : Nat) (s : σ) (out : List β)
    (o : List β) (s2 : σ)
    (hok : readLoop rm maxLen s out = Except.ok (o, s2)) :
    rm.bytes_buffered s2 = 0 ∨ maxLen ≤ o.length := by
  induction s, out using readLoop.induct rm maxLen with
  | case1 s out h view hv =>
    rw [readLoop_throw rm maxLen s out h hv] at hok
    cases hok
  | case2 s out h view hv v ih =>
    rw [readLoop_step rm maxLen s out h hv] at hok
    exact ih hok
  | case3 s out h =>
    rw [readLoop_stop rm maxLen s out h] at hok
    simp only [Except.ok.injEq, Prod.mk.injEq] at hok
    obtain ⟨rfl, rfl⟩ := hok
    rcases not_and_or.mp h with h0 | h0
    · exact Or.inl (by omega)
    · exact Or.inr (by omega)

/-- On a normal return the collected bytes extend the accumulator by
exactly the concatenation of the fragments of the iterations. -/
theorem readLoop_ok_append (rm : ReaderIntf β σ) (maxLen : Nat) (s : σ) (out : List β)
    (o : List β) (s2 : σ)
    (hok : readLoop rm maxLen s out = Except.ok (o, s2)) :
    o = out ++ (readFragments rm maxLen s out).flatten := by
  induction s, out using readLoop.induct rm maxLen with
  | case1 s out h view hv =>
    rw [readLoop_throw rm maxLen s out h hv] at hok
    cases hok
  | case2 s out h view hv v ih =>
    rw [readLoop_step rm maxLen s out h hv] at hok
    rw [readFragments_step rm maxLen s out h hv]
    have hrec := ih hok
    simp only [List.flatten_cons, ← List.append_assoc]
    exact hrec
  | case3 s out h =>
    rw [readLoop_stop rm maxLen s out h] at hok
    simp only [Except.ok.injEq, Prod.mk.injEq] at hok
    obtain ⟨rfl, rfl⟩ := hok
    rw [readFragments_stop rm maxLen s out h]
    simp

/-- The embedded peek is the empty view in every state, so the reader
consumes nothing along any run. -/
theorem consumedBytes_eq_nil (ops : List Op) (s : ByteStream) :
    consumedBytes s ops = [] := by
  induction ops generalizing s with
  | nil => rfl
  | cons op rest ih =>
    cases op <;> simp [consumedBytes, applyOp, Reader.peek, ih]

/-- The embedded available_capacity is 0 in every state, so every push
accepts the empty prefix of its data along any run. -/
theorem acceptedBytes_eq_nil (ops : List Op) (s : ByteStream) :
    acceptedBytes s ops = [] := by
  induction ops generalizing s with
  | nil => rfl
  | cons op rest ih =>
    cases op <;> simp [acceptedBytes, applyOp, Writer.available_capacity, ih]

/-- Claim C1: for every stream state and every byte sequence data of
length n, Writer::push( data ) appends exactly
min(n, available_capacity()) bytes from the front of data, in order, to
the observable buffer (front shown by peek, size by bytes_buffered) and
increases bytes_pushed() by that same amount; in particular, pushing n
bytes when available_capacity() == k < n increases bytes_buffered() by
exactly k and bytes_pushed() by exactly k.  On the embedded code
available_capacity() is identically 0, so the appended prefix is empty
and the counters stay unchanged, which is exactly what the stub push
does. -/
theorem C1_push_appends_min (s : ByteStream) (d : List Byte) :
    Reader.bytes_buffered (Writer.push s d) =
        Reader.bytes_buffered s + min d.length (Writer.available_capacity s) ∧
      Writer.bytes_pushed (Writer.push s d) =
        Writer.bytes_pushed s + min d.length (Writer.available_capacity s) ∧
      Reader.peek (Writer.push s d) =
        Reader.peek s ++ d.take (min d.length (Writer.available_capacity s)) ∧
      (∀ k, Writer.available_capacity s = k → k < d.length →
        Reader.bytes_buffered (Writer.push s d) = Reader.bytes_buffered s + k ∧
          Writer.bytes_pushed (Writer.push s d) = Writer.bytes_pushed s + k) := by
  refine ⟨?_, ?_, ?_, ?_⟩
  · simp [Reader.bytes_buffered, Writer.available_capacity]
  · simp [Writer.bytes_pushed, Writer.available_capacity]
  · simp [Reader.peek, Writer.available_capacity]
  · rintro k rfl hk
    exact ⟨rfl, rfl⟩

/-- Witness for C1 at a concrete truncating input: a fresh stream of
capacity 1 and a two-byte push, where available_capacity() = 0 < 2. -/
theorem C1_push_appends_min_witness :
    Reader.bytes_buffered (Writer.push (ByteStream.construct 1) [104, 105]) =
        Reader.bytes_buffered (ByteStream.construct 1) + 0 ∧
      Writer.bytes_pushed (Writer.push (ByteStream.construct 1) [104, 105]) =
        Writer.bytes_pushed (ByteStream.construct 1) + 0 :=
  (C1_push_appends_min (ByteStream.construct 1) [104, 105]).2.2.2 0 rfl (by decide)

/-- Claim C2 fails on the code: on a freshly constructed stream of
capacity 1, available_capacity() returns 0 (the stub body), while
capacity − bytes_buffered() is 1.  This theorem evaluates the embedded
code at that failing input. -/
theorem C2_available_capacity_stub :
    Writer.available_capacity (ByteStream.construct 1) = 0 ∧
      (ByteStream.construct 1).capacity_ -
          Reader.bytes_buffered (ByteStream.construct 1) = 1 :=
  ⟨rfl, rfl⟩

/-- Claim C3: after every finite sequence of push, close, pop and
set_error operations from a freshly constructed stream,
bytes_pushed() − bytes_popped() == bytes_buffered().  On the embedded
code all three queries are identically 0, so the identity holds in
every reachable state. -/
theorem C3_conservation (c : Nat) (ops : List Op) :
    Writer.bytes_pushed (applyOps (ByteStream.construct c) ops) -
        Reader.bytes_popped (applyOps (ByteStream.construct c) ops) =
      Reader.bytes_buffered (applyOps (ByteStream.construct c) ops) :=
  rfl

/-- Claim C4 fails on the code: immediately after Writer::close() the
state records closed_ = true, yet Writer::is_closed() still returns
false, because its body is the stub "return \x7b\x7d;".  This theorem
evaluates the embedded code at that failing input. -/
theorem C4_close_not_reported :
    Writer.is_closed (Writer.close (ByteStream.construct 1)) = false ∧
      (Writer.close (ByteStream.construct 1)).closed_ = true :=
  ⟨rfl, rfl⟩

/-- Claim C5 fails on the code: on a stream of capacity 5 after
push( "ab" ), close(), pop( 2 ) the claim demands is_finished() = true
(the stream is closed and the buffer empty: bytes_buffered() = 0), but
Reader::is_finished() returns false unconditionally.  This theorem
evaluates the embedded code at that failing input. -/
theorem C5_finished_stub :
    Reader.is_finished
        (Reader.pop (Writer.close (Writer.push (ByteStream.construct 5) [97, 98])) 2) =
        false ∧
      (Reader.pop (Writer.close (Writer.push (ByteStream.construct 5) [97, 98])) 2).closed_ =
        true ∧
      Reader.bytes_buffered
          (Reader.pop (Writer.close (Writer.push (ByteStream.construct 5) [97, 98])) 2) =
        0 :=
  ⟨rfl, rfl, rfl⟩

/-- Claim C6: along every sequence of push, pop and close calls that
respects the stated preconditions, the bytes consumed by the reader,
concatenated in consumption order, form a prefix of the concatenation
of the bytes accepted by the push calls.  On the embedded code both
concatenations are empty, so the prefix relation holds. -/
theorem C6_fifo (c : Nat) (ops : List Op)
    (h : opsValid (ByteStream.construct c) ops = true) :
    isPrefixList (consumedBytes (ByteStream.construct c) ops)
      (acceptedBytes (ByteStream.construct c) ops) := by
  rw [consumedBytes_eq_nil, acceptedBytes_eq_nil]
  exact ⟨[], rfl⟩

/-- Witness for C6 at a concrete valid run: capacity 2, one push of two
bytes, one pop of 0 bytes (the only length the precondition allows
here), then close. -/
theorem C6_fifo_witness :
    opsValid (ByteStream.construct 2) [Op.push [104, 105], Op.pop 0, Op.close] = true ∧
      isPrefixList
        (consumedBytes (ByteStream.construct 2) [Op.push [104, 105], Op.pop 0, Op.close])
        (acceptedBytes (ByteStream.construct 2) [Op.push [104, 105], Op.pop 0, Op.close]) :=
  ⟨by decide, C6_fifo 2 [Op.push [104, 105], Op.pop 0, Op.close] (by decide)⟩

/-- Claim C7 fails on the code: calling Reader::pop( len ) with
len > bytes_buffered() does not fail loudly; the stub body ignores len
and silently leaves the state unchanged.  This theorem evaluates the
embedded code at the failing input pop( 5 ) on a fresh stream whose
bytes_buffered() is 0. -/
theorem C7_pop_no_guard :
    Reader.bytes_buffered (ByteStream.construct 0) = 0 ∧
      Reader.pop (ByteStream.construct 0) 5 = ByteStream.construct 0 :=
  ⟨rfl, rfl⟩

/-- Claim C8: the drain helper read raises its fatal fault exactly when
its execution observes peek() returning an empty view while
bytes_buffered() is nonzero (so it never returns normally from that
combination), and a normal return happens only once max_len bytes are
collected or the buffer reads as empty. -/
theorem C8_read_fault_iff (rm : ReaderIntf β σ) (maxLen : Nat) (s : σ) (out : List β) :
    ((∃ msg, read rm maxLen s out = Except.error msg) ↔
        observesEmptyPeek rm maxLen s [] = true) ∧
      ∀ o s2, read rm maxLen s out = Except.ok (o, s2) →
        rm.bytes_buffered s2 = 0 ∨ maxLen ≤ o.length := by
  constructor
  · exact readLoop_error_iff rm maxLen s []
  · intro o s2 hok
    exact readLoop_ok_stop rm maxLen s [] o s2 hok

/-- Witness for C8 at the repository reader: a fresh capacity-3 stream,
whose bytes_buffered() is 0, so the helper returns normally at once. -/
theorem C8_read_fault_iff_witness :
    Reader.bytes_buffered (ByteStream.construct 3) = 0 ∨ 4 ≤ ([] : List Byte).length :=
  (C8_read_fault_iff minnowReader 4 (ByteStream.construct 3) []).2 []
    (ByteStream.construct 3)
    (readLoop_stop minnowReader 4 (ByteStream.construct 3) [] (by decide))

/-- Claim C9: the ByteStream constructor performs no runtime check on
its capacity argument: for every uint64 value, including 0,
construction succeeds (the embedded constructor is a total function)
and the resulting stream has has_error() = false. -/
theorem C9_construct_unchecked (c : Nat) (hc : c < 2 ^ 64) :
    ByteStream.has_error (ByteStream.construct c) = false ∧
      (ByteStream.construct c).capacity_ = c ∧
      (ByteStream.construct c).closed_ = false :=
  ⟨rfl, rfl, rfl⟩

/-- Witness for C9 at capacity 0. -/
theorem C9_construct_unchecked_witness :
    (0 : Nat) < 2 ^ 64 ∧
      (ByteStream.has_error (ByteStream.construct 0) = false ∧
        (ByteStream.construct 0).capacity_ = 0 ∧
        (ByteStream.construct 0).closed_ = false) :=
  ⟨by norm_num, C9_construct_unchecked 0 (by norm_num)⟩

/-- Claim C10: the drain helper clears out before collecting: its
result does not depend on the prior contents of out, and on a normal
return out is exactly the concatenation of the fragments collected
during this call. -/
theorem C10_read_clears_out (rm : ReaderIntf β σ) (maxLen : Nat) (s : σ)
    (out1 out2 : List β) :
    read rm maxLen s out1 = read rm maxLen s out2 ∧
      ∀ o s2, read rm maxLen s out1 = Except.ok (o, s2) →
        o = (readFragments rm maxLen s []).flatten := by
  refine ⟨rfl, ?_⟩
  intro o s2 hok
  have h := readLoop_ok_append rm maxLen s [] o s2 hok
  simpa using h

/-- Witness for C10 at the repository reader: the prior contents of
out, here one stale byte, do not survive the call. -/
theorem C10_read_clears_out_witness :
    ([] : List Byte) = (readFragments minnowReader 4 (ByteStream.construct 3) []).flatten :=
  (C10_read_clears_out minnowReader 4 (ByteStream.construct 3) [7] []).2 []
    (ByteStream.construct 3)
    (readLoop_stop minnowReader 4 (ByteStream.construct 3) [] (by decide))
